import Mathlib

/-!
Shallow embedding of `miner_demo/multi_site_miner.py`.

The module has four parts the claims talk about:
* `Fetcher.get` — retry loop around `requests.Session.get`;
* `robots_allows` — minimal robots.txt check;
* `parse_example_json` / `parse_example_html` — the two example extractors;
* `mine_target` — the breadth-first crawl orchestrator.

Pure control flow is translated function by function; the network is an
explicit parameter (a function from URL / attempt number to an outcome),
and Python exceptions become `Except` results.
-/

namespace MultiSiteMiner

/-! ## Python str methods

The module uses `str.strip`, `str.lower`, `str.startswith`,
`str.split(sep, 1)` and `str.splitlines`. They are modelled over the
character list of the string so that concrete runs reduce inside the
kernel; all inputs of interest are ASCII, where these agree with Python. -/

/-- Model of `str.strip()`: drop whitespace from both ends. -/
def pyStrip (s : String) : String :=
  String.mk (((s.toList.dropWhile Char.isWhitespace).reverse.dropWhile
    Char.isWhitespace).reverse)

/-- Model of `str.lower()` on ASCII text. -/
def pyLower (s : String) : String :=
  String.mk (s.toList.map Char.toLower)

/-- Model of `s.startswith(p)`. -/
def pyStartsWith (s p : String) : Bool :=
  p.toList.isPrefixOf s.toList

/-- Split a character list at the first occurrence of the (non-empty)
separator: `some (before, after)` with the separator removed, or `none`
when the separator does not occur. -/
def breakOnAux (sep : List Char) : List Char → Option (List Char × List Char)
  | [] => none
  | c :: cs =>
    if sep.isPrefixOf (c :: cs) then some ([], (c :: cs).drop sep.length)
    else
      match breakOnAux sep cs with
      | some (a, b) => some (c :: a, b)
      | none => none

/-- String version of `breakOnAux`: the pieces around the first occurrence
of `sep`. -/
def strBreakOn (sep s : String) : Option (String × String) :=
  match breakOnAux sep.toList s.toList with
  | some (a, b) => some (String.mk a, String.mk b)
  | none => none

/-! ## URL helpers (fragment of urllib.parse used by the module) -/

/-- Fragment of `urllib.parse.urlparse` the miner relies on: split an
absolute URL into `(scheme, netloc, path)`; query and fragment are cut off
the path. A URL without `://` parses as a bare path, which is all the
module ever feeds to it besides absolute http(s) URLs. -/
def urlparse (url : String) : String × String × String :=
  match strBreakOn "://" url with
  | some (scheme, after) =>
    let cs := after.toList
    let netloc := cs.takeWhile (fun c => c != '/' && c != '?' && c != '#')
    let restCs := cs.dropWhile (fun c => c != '/' && c != '?' && c != '#')
    let path :=
      if restCs.head? = some '/' then restCs.takeWhile (fun c => c != '?' && c != '#')
      else []
    (scheme, String.mk netloc, String.mk path)
  | none => ("", "", url)

/-- Fragment of `urllib.parse.urljoin` used by the example parsers: an
absolute url wins; a root-relative url replaces the whole path of the
base; any other url replaces the last path segment of the base. -/
def urljoin (base url : String) : String :=
  if url = "" then base
  else if (strBreakOn "://" url).isSome then url
  else
    let p := urlparse base
    if pyStartsWith url "/" then p.1 ++ "://" ++ p.2.1 ++ url
    else
      let dir := String.mk ((p.2.2.toList.reverse.dropWhile (fun c => c != '/')).reverse)
      p.1 ++ "://" ++ p.2.1 ++ (if dir = "" then "/" else dir) ++ url

/-! ## Fetcher.get -/

/-- Outcome of one call of `self.session.get(url, timeout=...)` inside
`Fetcher.get`: a response carrying a status code, or a transport-level
error (`requests.Timeout` / `requests.ConnectionError`). -/
inductive Attempt where
  | resp (status : Nat)
  | timeoutErr
  | connectionErr
deriving DecidableEq, Repr

/-- Errors surfaced by `Fetcher.get`: `requests.HTTPError` carrying the
status (raised explicitly for the transient statuses and by
`raise_for_status`), the two transport errors, and the final
`RuntimeError("Unreachable")` after the loop. -/
inductive GetError where
  | httpError (status : Nat)
  | timeoutErr
  | connectionErr
  | unreachable
deriving DecidableEq, Repr

/-- The status codes `Fetcher.get` singles out as transient before calling
`raise_for_status`. -/
def transientStatuses : List Nat := [429, 500, 502, 503, 504]

/-- The loop `for attempt in range(1, max_retries + 1)` of `Fetcher.get`,
entered at counter value `attempt`. `net k` is the outcome of the
`session.get` call on attempt `k`. Returns the result (`.ok status` for a
returned response) together with the number of `session.get` calls made.
`requests.raise_for_status` raises exactly for `400 ≤ status < 600`; the
`except` clause catches `Timeout`, `ConnectionError` and `HTTPError`
alike, re-raising on the last attempt. Falling past the loop (possible
only when the range is empty) is the RuntimeError. -/
def getLoop (net : Nat → Attempt) (maxRetries attempt made : Nat) :
    Except GetError Nat × Nat :=
  if _h : maxRetries < attempt then (Except.error GetError.unreachable, made)
  else
    match net attempt with
    | Attempt.resp s =>
      if s ∈ transientStatuses then
        if attempt = maxRetries then (Except.error (GetError.httpError s), made + 1)
        else getLoop net maxRetries (attempt + 1) (made + 1)
      else if 400 ≤ s ∧ s < 600 then
        if attempt = maxRetries then (Except.error (GetError.httpError s), made + 1)
        else getLoop net maxRetries (attempt + 1) (made + 1)
      else (Except.ok s, made + 1)
    | Attempt.timeoutErr =>
      if attempt = maxRetries then (Except.error GetError.timeoutErr, made + 1)
      else getLoop net maxRetries (attempt + 1) (made + 1)
    | Attempt.connectionErr =>
      if attempt = maxRetries then (Except.error GetError.connectionErr, made + 1)
      else getLoop net maxRetries (attempt + 1) (made + 1)
termination_by maxRetries + 1 - attempt
decreasing_by all_goals omega

/-- Model of `Fetcher.get`. `maxRetries` is the Python `max_retries` int
field; `range(1, max_retries + 1)` runs the attempt counter from 1 while
it does not exceed `max_retries`, so a non-positive `max_retries` gives an
empty loop. Returns the result and the number of `session.get` calls. -/
def fetcherGet (net : Nat → Attempt) (maxRetries : Int) : Except GetError Nat × Nat :=
  getLoop net maxRetries.toNat 1 0

/-! ## robots_allows -/

/-- Model of Python `line.split(":", 1)[1]`: everything after the first
colon. Only reached on lines whose lowercase form starts with
`user-agent:` or `disallow:`, which contain a colon, so the no-colon
fallback is never taken there. -/
def afterFirstColon (s : String) : String :=
  match strBreakOn ":" s with
  | some (_, after) => after
  | none => ""

/-- Helper for `splitlines`: walk the characters, cutting a line at LF,
CR, or CRLF counted once, like Python `str.splitlines`; the piece after a
final terminator is not emitted. -/
def splitlinesAux : List Char → List Char → List String
  | [], acc => if acc.isEmpty then [] else [String.mk acc.reverse]
  | '\r' :: '\n' :: cs, acc => String.mk acc.reverse :: splitlinesAux cs []
  | '\r' :: cs, acc => String.mk acc.reverse :: splitlinesAux cs []
  | '\n' :: cs, acc => String.mk acc.reverse :: splitlinesAux cs []
  | c :: cs, acc => splitlinesAux cs (c :: acc)

/-- Model of `str.splitlines()` for the terminators robots.txt files use. -/
def splitlines (s : String) : List String :=
  splitlinesAux s.toList []

/-- The line loop of `robots_allows`: track whether the current user-agent
block applies (`ua_block`) and collect the values of `Disallow:` lines
seen while it does. -/
def robotsScan (userAgent : String) : List String → Bool → List String → List String
  | [], _, disallows => disallows
  | line :: rest, uaBlock, disallows =>
    let l := pyStrip line
    if l.isEmpty || pyStartsWith l "#" then robotsScan userAgent rest uaBlock disallows
    else if pyStartsWith (pyLower l) "user-agent:" then
      let ua := pyStrip (afterFirstColon l)
      robotsScan userAgent rest (ua.isEmpty || pyLower ua == pyLower userAgent) disallows
    else if uaBlock && pyStartsWith (pyLower l) "disallow:" then
      robotsScan userAgent rest uaBlock (disallows ++ [pyStrip (afterFirstColon l)])
    else robotsScan userAgent rest uaBlock disallows

/-- The decision loop of `robots_allows`: the path is disallowed when it
starts with any non-empty recorded `Disallow` value. -/
def checkDisallows (path : String) : List String → Bool
  | [] => true
  | d :: rest =>
    if d.isEmpty then checkDisallows path rest
    else if pyStartsWith path d then false
    else checkDisallows path rest

/-- The robots.txt URL `robots_allows` builds for a page URL. -/
def robotsUrl (url : String) : String :=
  let p := urlparse url
  p.1 ++ "://" ++ p.2.1 ++ "/robots.txt"

/-- Model of `robots_allows`. The single `requests.get` of the robots URL
is the parameter `net`: `.error ()` is any raised exception, `.ok (status,
text)` a response. The body of the `try` block cannot raise after a
response is obtained (string scanning only), so the blanket `except
Exception: return True` is exactly the `.error` arm plus nothing. -/
def robots_allows (net : String → Except Unit (Nat × String)) (url userAgent : String) :
    Bool :=
  match net (robotsUrl url) with
  | Except.error _ => true
  | Except.ok (status, text) =>
    if status ≠ 200 then true
    else
      let disallows := robotsScan userAgent (splitlines text) false []
      let path0 := (urlparse url).2.2
      let path := if path0 = "" then "/" else path0
      checkDisallows path disallows

/-! ## parse_example_json -/

/-- Model of the Python values `resp.json()` can return. -/
inductive JValue where
  | null
  | boolean (b : Bool)
  | num (n : Int)
  | str (s : String)
  | arr (xs : List JValue)
  | obj (fields : List (String × JValue))

/-- Python exceptions the JSON parser path can raise. -/
inductive PyError where
  | attributeError
  | typeError
deriving DecidableEq, Repr

/-- Model of Python `v.get(key, default)`: a dict looks the key up and
falls back to the default; every other value has no `get` attribute and
raises `AttributeError`. -/
def pyGet (v : JValue) (key : String) (dflt : JValue) : Except PyError JValue :=
  match v with
  | JValue.obj fields =>
    match fields.lookup key with
    | some w => Except.ok w
    | none => Except.ok dflt
  | _ => Except.error PyError.attributeError

/-- Model of Python iteration (`for it in items`): lists yield their
elements, dicts their keys, strings their characters; other values raise
`TypeError`. -/
def pyIter (v : JValue) : Except PyError (List JValue) :=
  match v with
  | JValue.arr xs => Except.ok xs
  | JValue.obj fields => Except.ok (fields.map (fun f => JValue.str f.1))
  | JValue.str s => Except.ok (s.toList.map (fun c => JValue.str (String.mk [c])))
  | _ => Except.error PyError.typeError

/-- One record built by `parse_example_json`, mirroring the dict literal
with keys `id`, `name`, `value`, `source`. -/
structure JsonRec where
  id : JValue
  name : JValue
  value : JValue
  source : String

/-- Model of `parse_example_json`, applied to the already-parsed JSON body
(`data = resp.json()`). The Python line is
`items = data.get("items", data if isinstance(data, list) else [])`: the
default expression is evaluated, but `.get` itself is attribute access on
`data`. Each item is read with `it.get("id")` etc., default `None`. -/
def parse_example_json (data : JValue) (baseUrl : String) :
    Except PyError (List JsonRec) := do
  let items ← pyGet data "items"
    (match data with
     | JValue.arr _ => data
     | _ => JValue.arr [])
  let elems ← pyIter items
  elems.mapM (fun it => do
    let i ← pyGet it "id" JValue.null
    let n ← pyGet it "name" JValue.null
    let v ← pyGet it "value" JValue.null
    pure { id := i, name := n, value := v, source := baseUrl })

/-! ## parse_example_html -/

/-- The link element selected inside a card
(`card.select_one("a.detail-link, a")`), with its optional `href`
attribute (`link_el.get("href")`; `none` when the attribute is absent). -/
structure LinkEl where
  href : Option String
deriving DecidableEq, Repr

/-- Selection results of BeautifulSoup on one card element: the stripped
text of the matched title element if any (`get_text(strip=True)`), the
matched link element if any, and the stripped text of the matched price
element if any. -/
structure Card where
  title_el : Option String
  link_el : Option LinkEl
  price_el : Option String
deriving DecidableEq, Repr

/-- Python truthiness of the computed optional-string fields: `None` and
the empty string are falsy. -/
def truthyOpt : Option String → Bool
  | none => false
  | some s => !s.isEmpty

/-- Body of the card loop of `parse_example_html`: compute `title`, `href`
and `price` and emit the dict literal when `title or href or price` is
truthy. The record keeps the dict shape as a key/value list, with Python
`None` as `none`. -/
def cardRecord (baseUrl : String) (card : Card) :
    Option (List (String × Option String)) :=
  let title := card.title_el
  let href : Option String :=
    match card.link_el with
    | some l =>
      match l.href with
      | some h => if h.isEmpty then none else some (urljoin baseUrl h)
      | none => none
    | none => none
  let price := card.price_el
  if truthyOpt title || truthyOpt href || truthyOpt price then
    some [("title", title), ("url", href), ("price", price), ("source", some baseUrl)]
  else none

/-- Model of `parse_example_html`, applied to the list of card elements
the selector `.card, .item, article` returns. -/
def parse_example_html (cards : List Card) (baseUrl : String) :
    List (List (String × Option String)) :=
  cards.filterMap (cardRecord baseUrl)

/-- Spec-side characterization of a card for which at least one of the
three computed fields is truthy: the title text is present and non-empty,
or a link element with a present non-empty href was matched, or the price
text is present and non-empty. -/
def cardFound (c : Card) : Bool :=
  truthyOpt c.title_el ||
    (match c.link_el with
     | some l => truthyOpt l.href
     | none => false) ||
    truthyOpt c.price_el

/-! ## mine_target -/

/-- Instrumented result of a `mine_target` run: the Python function
returns only `collected`; the final `seen_urls` set (in insertion order)
and the ordered trace of `fetcher.get` invocations are exposed so the
crawl invariants can be stated. -/
structure MineOut (ε ρ : Type) where
  result : Except ε (List ρ)
  seen : List String
  fetched : List String

/-- The base url `mine_target` derives from a page url
(`f"{urlparse(url).scheme}://{urlparse(url).netloc}"`). -/
def baseUrlOf (url : String) : String :=
  let p := urlparse url
  p.1 ++ "://" ++ p.2.1

/-- The `while queue and len(seen_urls) < max_pages` loop of
`mine_target`. `fetch` is `fetcher.get` (an exception is `.error`),
`robots` the `robots_allows` check, `parse` the target's parser and
`discover` the optional `discover_next_urls`. `seen` is the `seen_urls`
set in insertion order (elements are only ever added through the
membership guard, so the list stays duplicate-free and its length is the
set's cardinality). A fetch exception propagates: the records collected so
far are dropped and only the error is returned. -/
def mineLoop {π ρ ε : Type} (fetch : String → Except ε π) (robots : String → Bool)
    (parse : π → String → List ρ) (discover : Option (π → String → List String))
    (respectRobots : Bool) (maxPages : Nat) :
    List String → List String → List ρ → List String → MineOut ε ρ
  | [], seen, collected, fetched => ⟨Except.ok collected, seen, fetched⟩
  | url :: queue, seen, collected, fetched =>
    if _hm : maxPages ≤ seen.length then ⟨Except.ok collected, seen, fetched⟩
    else if _hs : url ∈ seen then
      mineLoop fetch robots parse discover respectRobots maxPages
        queue seen collected fetched
    else
      let seenTwo := seen ++ [url]
      if respectRobots && !robots url then
        mineLoop fetch robots parse discover respectRobots maxPages
          queue seenTwo collected fetched
      else
        match fetch url with
        | Except.error e => ⟨Except.error e, seenTwo, fetched ++ [url]⟩
        | Except.ok page =>
          let base := baseUrlOf url
          let collectedTwo := collected ++ parse page base
          let queueTwo :=
            match discover with
            | some d => queue ++ (d page base).filter (fun nu => !seenTwo.contains nu)
            | none => queue
          mineLoop fetch robots parse discover respectRobots maxPages
            queueTwo seenTwo collectedTwo (fetched ++ [url])
termination_by queue seen _ _ => (maxPages - seen.length, queue.length)
decreasing_by
  · apply Prod.Lex.right
    simp
  · simp only [List.length_append, List.length_cons, List.length_nil]
    apply Prod.Lex.left
    omega
  · simp only [List.length_append, List.length_cons, List.length_nil]
    apply Prod.Lex.left
    omega

/-- Model of `mine_target`: run the loop from the target's `start_urls`
with empty `seen_urls` and an empty collection. -/
def mine_target {π ρ ε : Type} (fetch : String → Except ε π) (robots : String → Bool)
    (parse : π → String → List ρ) (discover : Option (π → String → List String))
    (startUrls : List String) (maxPages : Nat) (respectRobots : Bool) : MineOut ε ρ :=
  mineLoop fetch robots parse discover respectRobots maxPages startUrls [] [] []

/-! ## Helper lemmas -/

/-- Appending a non-empty string on the right gives a non-empty string. -/
theorem str_append_ne_empty (a b : String) (h : b ≠ "") : a ++ b ≠ "" := by
  intro hc
  apply h
  have hd : (a ++ b).data = a.data ++ b.data := String.data_append a b
  rw [hc] at hd
  have hb : b.data = [] := (List.append_eq_nil.mp hd.symm).2
  cases b with
  | mk d =>
    simp only at hb
    simp [hb]

/-- The result of `urljoin` on a non-empty relative or absolute url is
never the empty string. -/
theorem urljoin_ne_empty (base url : String) (h : url ≠ "") : urljoin base url ≠ "" := by
  rw [urljoin]
  rw [if_neg h]
  split
  · exact h
  · split
    · exact str_append_ne_empty _ _ h
    · exact str_append_ne_empty _ _ h

/-- An optional value produced by a guard emits `some` exactly when the
guard holds. -/
theorem isSome_ite_some_none {α : Type} (c : Bool) (x : α) :
    (if c = true then some x else none).isSome = c := by
  cases c <;> simp

/-- The emit decision of the card loop agrees with the input-level
characterization `cardFound`. -/
theorem cardRecord_isSome (b : String) (c : Card) :
    (cardRecord b c).isSome = cardFound c := by
  obtain ⟨t, l, p⟩ := c
  simp only [cardRecord]
  rw [isSome_ite_some_none]
  cases l with
  | none => simp [cardFound, truthyOpt]
  | some le =>
    obtain ⟨href?⟩ := le
    cases href? with
    | none => simp [cardFound, truthyOpt]
    | some h =>
      cases hh : h.isEmpty with
      | true => simp [cardFound, truthyOpt, hh]
      | false =>
        have hj : (urljoin b h).isEmpty = false := by
          cases hu : (urljoin b h).isEmpty
          · rfl
          · exact absurd ((String.isEmpty_iff _).mp hu)
              (urljoin_ne_empty b h (fun he => by rw [he] at hh; exact absurd hh (by decide)))
        simp [cardFound, truthyOpt, hh, hj]

/-- Every record the card loop emits is the four-key dict literal. -/
theorem cardRecord_keys (b : String) (c : Card) (r : List (String × Option String))
    (h : cardRecord b c = some r) :
    r.map Prod.fst = ["title", "url", "price", "source"] := by
  rw [cardRecord] at h
  split at h
  · cases h
    rfl
  · cases h

/-! ## Claim theorems: Fetcher.get -/

/-- C1: counterexample evaluation. The `except` clause of `Fetcher.get`
catches `requests.HTTPError`, which `raise_for_status` raises for a 404
too, so a constant-404 server is retried for the full `max_retries = 4`
attempts (first conjunct) exactly like a constant-503 server (second
conjunct) or a constantly timing-out one (third conjunct) — instead of
surfacing after a single attempt with zero retries as the claim states. -/
theorem fetcherGet_retries_404 :
    fetcherGet (fun _ => Attempt.resp 404) 4 = (Except.error (GetError.httpError 404), 4) ∧
    fetcherGet (fun _ => Attempt.resp 503) 4 = (Except.error (GetError.httpError 503), 4) ∧
    fetcherGet (fun _ => Attempt.timeoutErr) 4 = (Except.error GetError.timeoutErr, 4) := by
  refine ⟨?_, ?_, ?_⟩ <;> simp [fetcherGet, getLoop, transientStatuses]

/-! ## Claim theorems: robots_allows -/

/-- C2: counterexample evaluation. With the default queried agent `""`,
the line `User-agent: *` sets `ua_block = ("*" == "" or "*" == "")`,
which is false: the star block never activates, its `Disallow: /private`
is not recorded, and both `https://h/private/x` and `https://h/public`
are allowed — where the claim (and standard robots.txt semantics) expects
`/private/x` to be denied. The activation rule itself is implemented as
the claim states it: a blank `User-agent:` value does activate the block
and then `/private/x` is denied (third conjunct); the star wildcard is
what the code misses. -/
theorem robots_allows_ignores_star_agent :
    robots_allows (fun _ => Except.ok (200, "User-agent: *\nDisallow: /private"))
      "https://h/private/x" "" = true ∧
    robots_allows (fun _ => Except.ok (200, "User-agent: *\nDisallow: /private"))
      "https://h/public" "" = true ∧
    robots_allows (fun _ => Except.ok (200, "User-agent:\nDisallow: /private"))
      "https://h/private/x" "" = false := by
  refine ⟨?_, ?_, ?_⟩ <;> decide

/-! ## Claim theorems: parse_example_json -/

/-- C3: counterexample evaluation. `data.get("items", ...)` is attribute
access on `data`; a Python list has no `get` method, so the bare list
body `[{"id": 2}]` raises `AttributeError` instead of yielding a record
(first conjunct) — the list-typed default written on that very line is
unreachable for lists. The object cases behave as claimed: a body with an
`items` list yields its records with missing fields null (second
conjunct), and an object without `items` yields zero records (third
conjunct). -/
theorem parse_example_json_bare_list_raises :
    parse_example_json (JValue.arr [JValue.obj [("id", JValue.num 2)]]) "https://e"
      = Except.error PyError.attributeError ∧
    parse_example_json
      (JValue.obj [("items",
        JValue.arr [JValue.obj [("id", JValue.num 1), ("name", JValue.str "a")]])])
      "https://e"
      = Except.ok [JsonRec.mk (JValue.num 1) (JValue.str "a") JValue.null "https://e"] ∧
    parse_example_json (JValue.obj [("other", JValue.num 1)]) "https://e"
      = Except.ok ([] : List JsonRec) :=
  ⟨rfl, rfl, rfl⟩

/-! ## Claim theorems: parse_example_html -/

/-- C9 counterexample: a card whose title element matched but whose
stripped text is empty — e.g. `<div class="card"><h2 class="title"></h2></div>`
— with no link and no price. The claim says a card with a title element
and no link/price yields exactly one record; the code tests Python
truthiness of the extracted strings, the empty title text is falsy, and
zero records are emitted. -/
theorem parse_example_html_empty_title_emits_nothing :
    parse_example_html [⟨some "", none, none⟩] "https://h" = [] := rfl

/-- C9 (amended): a card yields a record exactly when at least one of the
three extracted fields is truthy — a title or price element with
non-empty stripped text, or a link element carrying a non-empty `href`;
emitted records always carry all four keys `title, url, price, source`,
with fields that were not found present as null. In particular a card
with a non-empty title and no link/price yields one record with null url
and price, and a card with none of the three elements yields nothing. -/
theorem parse_example_html_emits_iff_truthy (cards : List Card) (base : String) :
    (parse_example_html cards base).length = (cards.filter cardFound).length ∧
    (parse_example_html cards base).all
      (fun r => r.map Prod.fst == ["title", "url", "price", "source"]) = true ∧
    parse_example_html [⟨some "T", none, none⟩] base
      = [[("title", some "T"), ("url", none), ("price", none), ("source", some base)]] ∧
    parse_example_html [⟨none, none, none⟩] base = [] := by
  refine ⟨?_, ?_, rfl, rfl⟩
  · induction cards with
    | nil => rfl
    | cons c cs ih =>
      have hc := cardRecord_isSome base c
      rw [parse_example_html] at ih ⊢
      cases h : cardRecord base c with
      | none =>
        rw [h] at hc
        simp only [Option.isSome_none] at hc
        rw [List.filterMap_cons_none h, List.filter_cons_of_neg (by simp [← hc])]
        exact ih
      | some r =>
        rw [h] at hc
        simp only [Option.isSome_some] at hc
        rw [List.filterMap_cons_some h, List.filter_cons_of_pos (by simp [← hc])]
        simp only [List.length_cons]
        omega
  · rw [List.all_eq_true]
    intro r hr
    rw [parse_example_html, List.mem_filterMap] at hr
    obtain ⟨c, _, hc⟩ := hr
    simp [cardRecord_keys base c r hc]

/-- Inside the retry loop every branch either returns a response,
re-raises the caught error on the final attempt, or moves to the next
attempt, so the RuntimeError arm is never produced once the loop has been
entered with a valid attempt counter. Induction over the remaining
attempt budget `d`. -/
theorem getLoop_ne_unreachable (net : Nat → Attempt) :
    ∀ (d maxRetries attempt made : Nat), attempt ≤ maxRetries →
      maxRetries - attempt ≤ d →
      (getLoop net maxRetries attempt made).1 ≠ Except.error GetError.unreachable := by
  intro d
  induction d with
  | zero =>
    intro mr a k h hd
    have ha : a = mr := by omega
    rw [getLoop, dif_neg (by omega)]
    rcases hnet : net a with s | _ | _
    · by_cases h1 : s ∈ transientStatuses
      · simp [h1, ha]
      · by_cases h2 : 400 ≤ s ∧ s < 600
        · simp [h1, h2, ha]
        · simp [h1, h2]
    · simp [ha]
    · simp [ha]
  | succ d ih =>
    intro mr a k h hd
    rw [getLoop, dif_neg (by omega)]
    rcases hnet : net a with s | _ | _
    · by_cases h1 : s ∈ transientStatuses
      · by_cases h2 : a = mr
        · simp [h1, h2]
        · simp only [h1, h2, if_true, if_false, ite_false, ite_true]
          exact ih mr (a + 1) (k + 1) (by omega) (by omega)
      · by_cases h2 : 400 ≤ s ∧ s < 600
        · by_cases h3 : a = mr
          · simp [h1, h2, h3]
          · simp only [h1, h2, h3, if_true, if_false, ite_false, ite_true]
            exact ih mr (a + 1) (k + 1) (by omega) (by omega)
        · simp [h1, h2]
    · by_cases h2 : a = mr
      · simp [h2]
      · simp only [h2, ite_false]
        exact ih mr (a + 1) (k + 1) (by omega) (by omega)
    · by_cases h2 : a = mr
      · simp [h2]
      · simp only [h2, ite_false]
        exact ih mr (a + 1) (k + 1) (by omega) (by omega)

/-- C10: the final `raise RuntimeError("Unreachable")` of `Fetcher.get` is
dead whenever `max_retries ≥ 1` — every call either returns a response or
re-raises the last request error from inside the loop — while for
`max_retries ≤ 0` the loop body never runs and the call raises the
RuntimeError having made zero network attempts. -/
theorem fetcherGet_unreachable_guard (net : Nat → Attempt) (maxRetries : Int) :
    (1 ≤ maxRetries →
      (fetcherGet net maxRetries).1 ≠ Except.error GetError.unreachable) ∧
    (maxRetries ≤ 0 →
      fetcherGet net maxRetries = (Except.error GetError.unreachable, 0)) := by
  constructor
  · intro h1
    apply getLoop_ne_unreachable net maxRetries.toNat maxRetries.toNat 1 0 (by omega)
      (by omega)
  · intro h0
    have ht : maxRetries.toNat = 0 := by omega
    rw [fetcherGet, ht, getLoop]
    simp

/-- Witness for `fetcherGet_unreachable_guard` at a server that answers
200 immediately, with `max_retries` 1 and 0. -/
theorem fetcherGet_unreachable_guard_witness :
    ((fetcherGet (fun _ => Attempt.resp 200) 1).1 ≠ Except.error GetError.unreachable) ∧
    fetcherGet (fun _ => Attempt.resp 200) 0 = (Except.error GetError.unreachable, 0) :=
  ⟨(fetcherGet_unreachable_guard (fun _ => Attempt.resp 200) 1).1 (by norm_num),
   (fetcherGet_unreachable_guard (fun _ => Attempt.resp 200) 0).2 (by norm_num)⟩

/-- A scan over lines none of which is a `Disallow:` line records no
disallow prefixes. -/
theorem robotsScan_no_disallow (ua : String) (lines : List String) (b : Bool)
    (dis : List String)
    (h : ∀ l ∈ lines, pyStartsWith (pyLower (pyStrip l)) "disallow:" = false) :
    robotsScan ua lines b dis = dis := by
  induction lines generalizing b with
  | nil => rfl
  | cons l rest ih =>
    have hl := h l (by simp)
    have hrest := fun x hx => h x (List.mem_cons_of_mem l hx)
    rw [robotsScan]
    split_ifs with h1 h2 h3
    · exact ih _ hrest
    · exact ih _ hrest
    · exact absurd h3 (by simp [hl])
    · exact ih _ hrest

/-- C6: robots_allows never propagates an internal failure to its caller —
an exception during the robots.txt fetch resolves to true (first
conjunct), a non-200 robots.txt response resolves to true (second
conjunct), and a 200 body with no `Disallow:` line at all, i.e. any file
the parser cannot read rules from, resolves to true (third conjunct).
Totality of the Lean function mirrors the blanket
`except Exception: return True`. -/
theorem robots_allows_permissive (net : String → Except Unit (Nat × String))
    (url userAgent : String) :
    (net (robotsUrl url) = Except.error () →
      robots_allows net url userAgent = true) ∧
    (∀ status text, net (robotsUrl url) = Except.ok (status, text) → status ≠ 200 →
      robots_allows net url userAgent = true) ∧
    (∀ text, net (robotsUrl url) = Except.ok (200, text) →
      (∀ l ∈ splitlines text, pyStartsWith (pyLower (pyStrip l)) "disallow:" = false) →
      robots_allows net url userAgent = true) := by
  refine ⟨?_, ?_, ?_⟩
  · intro h
    rw [robots_allows, h]
  · intro status text h hs
    rw [robots_allows, h]
    simp [hs]
  · intro text h hnd
    rw [robots_allows, h]
    dsimp only
    rw [if_neg (by omega)]
    rw [robotsScan_no_disallow userAgent (splitlines text) false [] hnd]
    rfl

/-- Witness for `robots_allows_permissive`: an unreachable robots.txt, a
404 robots.txt, and a robots.txt with no Disallow line. -/
theorem robots_allows_permissive_witness :
    robots_allows (fun _ => Except.error ()) "https://h/a" "" = true ∧
    robots_allows (fun _ => Except.ok (404, "x")) "https://h/a" "" = true ∧
    robots_allows (fun _ => Except.ok (200, "hello robots")) "https://h/a" "" = true :=
  ⟨(robots_allows_permissive _ _ _).1 rfl,
   (robots_allows_permissive _ _ _).2.1 404 "x" rfl (by norm_num),
   (robots_allows_permissive _ _ _).2.2 "hello robots" rfl (by decide)⟩

/-! ## Step equations and invariants of the crawl loop -/

/-- Appending a fresh element keeps a list duplicate-free. -/
theorem nodup_append_singleton {α : Type} {l : List α} {a : α} (h : l.Nodup)
    (ha : a ∉ l) : (l ++ [a]).Nodup := by
  simp [List.nodup_append, h, ha]

/-- Loop exit on an empty queue. -/
theorem mineLoop_nil {π ρ ε : Type} {fetch : String → Except ε π}
    {robots : String → Bool} {parse : π → String → List ρ}
    {discover : Option (π → String → List String)} {rr : Bool} {maxPages : Nat}
    {seen : List String} {collected : List ρ} {fetched : List String} :
    mineLoop fetch robots parse discover rr maxPages [] seen collected fetched
      = ⟨Except.ok collected, seen, fetched⟩ := by
  rw [mineLoop]

/-- Loop exit once the seen set has reached the page budget. -/
theorem mineLoop_budget {π ρ ε : Type} {fetch : String → Except ε π}
    {robots : String → Bool} {parse : π → String → List ρ}
    {discover : Option (π → String → List String)} {rr : Bool} {maxPages : Nat}
    {url : String} {queue seen : List String} {collected : List ρ}
    {fetched : List String} (h : maxPages ≤ seen.length) :
    mineLoop fetch robots parse discover rr maxPages (url :: queue) seen collected fetched
      = ⟨Except.ok collected, seen, fetched⟩ := by
  rw [mineLoop, dif_pos h]

/-- A dequeued URL already in the seen set is dropped without any other
effect. -/
theorem mineLoop_dup {π ρ ε : Type} {fetch : String → Except ε π}
    {robots : String → Bool} {parse : π → String → List ρ}
    {discover : Option (π → String → List String)} {rr : Bool} {maxPages : Nat}
    {url : String} {queue seen : List String} {collected : List ρ}
    {fetched : List String} (h : ¬ maxPages ≤ seen.length) (hs : url ∈ seen) :
    mineLoop fetch robots parse discover rr maxPages (url :: queue) seen collected fetched
      = mineLoop fetch robots parse discover rr maxPages queue seen collected fetched := by
  rw [mineLoop, dif_neg h, dif_pos hs]

/-- A robots-denied fresh URL is marked seen and skipped; the loop
continues on the rest of the queue with collection and fetch trace
untouched. -/
theorem mineLoop_robots_skip {π ρ ε : Type} {fetch : String → Except ε π}
    {robots : String → Bool} {parse : π → String → List ρ}
    {discover : Option (π → String → List String)} {rr : Bool} {maxPages : Nat}
    {url : String} {queue seen : List String} {collected : List ρ}
    {fetched : List String} (h : ¬ maxPages ≤ seen.length) (hs : url ∉ seen)
    (hr : (rr && !robots url) = true) :
    mineLoop fetch robots parse discover rr maxPages (url :: queue) seen collected fetched
      = mineLoop fetch robots parse discover rr maxPages queue (seen ++ [url])
          collected fetched := by
  rw [mineLoop, dif_neg h, dif_neg hs]
  dsimp only
  rw [if_pos hr]

/-- A failing fetch of a fresh, allowed URL ends the whole loop with the
error; whatever was collected before is not part of the result. -/
theorem mineLoop_fetch_error {π ρ ε : Type} {fetch : String → Except ε π}
    {robots : String → Bool} {parse : π → String → List ρ}
    {discover : Option (π → String → List String)} {rr : Bool} {maxPages : Nat}
    {url : String} {queue seen : List String} {collected : List ρ}
    {fetched : List String} {e : ε} (h : ¬ maxPages ≤ seen.length) (hs : url ∉ seen)
    (hr : ¬ (rr && !robots url) = true) (hf : fetch url = Except.error e) :
    mineLoop fetch robots parse discover rr maxPages (url :: queue) seen collected fetched
      = ⟨Except.error e, seen ++ [url], fetched ++ [url]⟩ := by
  rw [mineLoop, dif_neg h, dif_neg hs]
  dsimp only
  rw [if_neg hr, hf]

/-- A successful fetch of a fresh, allowed URL recurses with the URL
marked seen and fetched, the parsed records appended, and any discovered
links not yet seen enqueued. -/
theorem mineLoop_fetch_ok {π ρ ε : Type} {fetch : String → Except ε π}
    {robots : String → Bool} {parse : π → String → List ρ}
    {discover : Option (π → String → List String)} {rr : Bool} {maxPages : Nat}
    {url : String} {queue seen : List String} {collected : List ρ}
    {fetched : List String} {page : π} (h : ¬ maxPages ≤ seen.length) (hs : url ∉ seen)
    (hr : ¬ (rr && !robots url) = true) (hf : fetch url = Except.ok page) :
    mineLoop fetch robots parse discover rr maxPages (url :: queue) seen collected fetched
      = mineLoop fetch robots parse discover rr maxPages
          (match discover with
           | some d => queue ++ (d page (baseUrlOf url)).filter
               (fun nu => !(seen ++ [url]).contains nu)
           | none => queue)
          (seen ++ [url]) (collected ++ parse page (baseUrlOf url))
          (fetched ++ [url]) := by
  rw [mineLoop, dif_neg h, dif_neg hs]
  dsimp only
  rw [if_neg hr, hf]

/-- Any URL in the final fetch trace was either already in the trace at
entry or was not yet seen at entry: the loop never fetches a URL that is
already in the seen set. -/
theorem mineLoop_fetched_fresh {π ρ ε : Type} {fetch : String → Except ε π}
    {robots : String → Bool} {parse : π → String → List ρ}
    {discover : Option (π → String → List String)} {rr : Bool} {maxPages : Nat} :
    ∀ (queue seen : List String) (collected : List ρ) (fetched : List String)
      (u : String),
      u ∈ (mineLoop fetch robots parse discover rr maxPages queue seen collected
        fetched).fetched →
      u ∈ fetched ∨ u ∉ seen := by
  intro queue seen collected fetched
  induction queue, seen, collected, fetched
    using mineLoop.induct fetch robots parse discover rr maxPages with
  | case1 seen collected fetched =>
    intro u hu
    rw [mineLoop_nil] at hu
    exact Or.inl hu
  | case2 url queue seen collected fetched hb =>
    intro u hu
    rw [mineLoop_budget hb] at hu
    exact Or.inl hu
  | case3 url queue seen collected fetched hb hs ih =>
    intro u hu
    rw [mineLoop_dup hb hs] at hu
    exact ih u hu
  | case4 url queue seen collected fetched hb hs seenTwo hr ih =>
    intro u hu
    rw [mineLoop_robots_skip hb hs hr] at hu
    rcases ih u hu with h | h
    · exact Or.inl h
    · exact Or.inr (fun hse => h (List.mem_append_left _ hse))
  | case5 url queue seen collected fetched hb hs hr e hf =>
    intro u hu
    rw [mineLoop_fetch_error hb hs hr hf] at hu
    rcases List.mem_append.mp hu with h | h
    · exact Or.inl h
    · have : u = url := by simpa using h
      exact Or.inr (this ▸ hs)
  | case6 url queue seen collected fetched hb hs seenTwo hr page hf base collectedTwo queueTwo ih =>
    intro u hu
    rw [mineLoop_fetch_ok hb hs hr hf] at hu
    rcases ih u hu with h | h
    · rcases List.mem_append.mp h with h2 | h2
      · exact Or.inl h2
      · have : u = url := by simpa using h2
        exact Or.inr (this ▸ hs)
    · exact Or.inr (fun hse => h (List.mem_append_left _ hse))

/-- Crawl invariant: a duplicate-free seen list, a duplicate-free fetch
trace contained in the seen list, stay so through the loop. -/
theorem mineLoop_nodup_inv {π ρ ε : Type} {fetch : String → Except ε π}
    {robots : String → Bool} {parse : π → String → List ρ}
    {discover : Option (π → String → List String)} {rr : Bool} {maxPages : Nat} :
    ∀ (queue seen : List String) (collected : List ρ) (fetched : List String),
      seen.Nodup → fetched.Nodup → (∀ u ∈ fetched, u ∈ seen) →
      ((mineLoop fetch robots parse discover rr maxPages queue seen collected
          fetched).seen.Nodup ∧
       (mineLoop fetch robots parse discover rr maxPages queue seen collected
          fetched).fetched.Nodup) := by
  intro queue seen collected fetched
  induction queue, seen, collected, fetched
    using mineLoop.induct fetch robots parse discover rr maxPages with
  | case1 seen collected fetched =>
    intro h1 h2 _
    rw [mineLoop_nil]
    exact ⟨h1, h2⟩
  | case2 url queue seen collected fetched hb =>
    intro h1 h2 _
    rw [mineLoop_budget hb]
    exact ⟨h1, h2⟩
  | case3 url queue seen collected fetched hb hs ih =>
    intro h1 h2 h3
    rw [mineLoop_dup hb hs]
    exact ih h1 h2 h3
  | case4 url queue seen collected fetched hb hs seenTwo hr ih =>
    intro h1 h2 h3
    rw [mineLoop_robots_skip hb hs hr]
    exact ih (nodup_append_singleton h1 hs) h2
      (fun u hu => List.mem_append_left _ (h3 u hu))
  | case5 url queue seen collected fetched hb hs hr e hf =>
    intro h1 h2 h3
    rw [mineLoop_fetch_error hb hs hr hf]
    exact ⟨nodup_append_singleton h1 hs,
      nodup_append_singleton h2 (fun hf2 => hs (h3 url hf2))⟩
  | case6 url queue seen collected fetched hb hs seenTwo hr page hf base collectedTwo queueTwo ih =>
    intro h1 h2 h3
    rw [mineLoop_fetch_ok hb hs hr hf]
    refine ih (nodup_append_singleton h1 hs)
      (nodup_append_singleton h2 (fun hf2 => hs (h3 url hf2))) ?_
    intro u hu
    rcases List.mem_append.mp hu with h | h
    · exact List.mem_append_left _ (h3 u h)
    · exact List.mem_append_right _ h

/-- Crawl invariant: the seen list never outgrows the page budget it
respected at entry. -/
theorem mineLoop_seen_bound {π ρ ε : Type} {fetch : String → Except ε π}
    {robots : String → Bool} {parse : π → String → List ρ}
    {discover : Option (π → String → List String)} {rr : Bool} {maxPages : Nat} :
    ∀ (queue seen : List String) (collected : List ρ) (fetched : List String),
      seen.length ≤ maxPages →
      (mineLoop fetch robots parse discover rr maxPages queue seen collected
        fetched).seen.length ≤ maxPages := by
  intro queue seen collected fetched
  induction queue, seen, collected, fetched
    using mineLoop.induct fetch robots parse discover rr maxPages with
  | case1 seen collected fetched =>
    intro h
    rw [mineLoop_nil]
    exact h
  | case2 url queue seen collected fetched hb =>
    intro h
    rw [mineLoop_budget hb]
    exact h
  | case3 url queue seen collected fetched hb hs ih =>
    intro h
    rw [mineLoop_dup hb hs]
    exact ih h
  | case4 url queue seen collected fetched hb hs seenTwo hr ih =>
    intro _
    rw [mineLoop_robots_skip hb hs hr]
    exact ih (by show (seen ++ [url]).length ≤ maxPages; simp; omega)
  | case5 url queue seen collected fetched hb hs hr e hf =>
    intro _
    rw [mineLoop_fetch_error hb hs hr hf]
    simp
    omega
  | case6 url queue seen collected fetched hb hs seenTwo hr page hf base collectedTwo queueTwo ih =>
    intro _
    rw [mineLoop_fetch_ok hb hs hr hf]
    exact ih (by show (seen ++ [url]).length ≤ maxPages; simp; omega)

/-! ## Claim theorems: mine_target -/

/-- C4: in every mine_target run the trace of fetcher.get invocations is
duplicate-free — no URL is fetched twice, even when start URLs repeat or
several discovered links resolve to the same URL — and the seen set, kept
as its insertion-ordered list, receives each URL at most once. -/
theorem mine_target_no_double_fetch {π ρ ε : Type} (fetch : String → Except ε π)
    (robots : String → Bool) (parse : π → String → List ρ)
    (discover : Option (π → String → List String)) (startUrls : List String)
    (maxPages : Nat) (respectRobots : Bool) :
    (mine_target fetch robots parse discover startUrls maxPages
      respectRobots).fetched.Nodup ∧
    (mine_target fetch robots parse discover startUrls maxPages
      respectRobots).seen.Nodup := by
  have h := @mineLoop_nodup_inv π ρ ε fetch robots parse discover respectRobots
    maxPages startUrls [] [] [] List.nodup_nil List.nodup_nil
    (fun u hu => absurd hu (List.not_mem_nil u))
  exact ⟨h.2, h.1⟩

/-- C5: the seen set of a mine_target run never exceeds `max_pages`
(first conjunct; the Lean loop is total on the lexicographic measure
`(max_pages - len(seen), len(queue))`, which is the code's termination
argument), and the loop stops exactly at an empty queue (second conjunct)
or a seen set that has reached `max_pages` (third conjunct), returning
what was collected. -/
theorem mine_target_seen_le_max_pages {π ρ ε : Type} (fetch : String → Except ε π)
    (robots : String → Bool) (parse : π → String → List ρ)
    (discover : Option (π → String → List String)) (startUrls : List String)
    (maxPages : Nat) (respectRobots : Bool) :
    (mine_target fetch robots parse discover startUrls maxPages
      respectRobots).seen.length ≤ maxPages ∧
    (∀ (seen : List String) (collected : List ρ) (fetched : List String),
      mineLoop fetch robots parse discover respectRobots maxPages [] seen collected
        fetched = ⟨Except.ok collected, seen, fetched⟩) ∧
    (∀ (url : String) (queue seen : List String) (collected : List ρ)
      (fetched : List String), maxPages ≤ seen.length →
      mineLoop fetch robots parse discover respectRobots maxPages (url :: queue) seen
        collected fetched = ⟨Except.ok collected, seen, fetched⟩) := by
  refine ⟨?_, ?_, ?_⟩
  · exact mineLoop_seen_bound startUrls [] [] [] (by simp)
  · intro seen collected fetched
    exact mineLoop_nil
  · intro url queue seen collected fetched h
    exact mineLoop_budget h

/-- Witness for `mine_target_seen_le_max_pages` on a crawl whose discovery
always yields two fresh URLs but whose budget is one page. -/
theorem mine_target_seen_le_max_pages_witness :
    (mine_target (fun _ => (Except.ok 0 : Except Unit Nat)) (fun _ => true)
      (fun _ _ => ([] : List Nat)) (some (fun _ b => [b ++ "/1", b ++ "/2"]))
      ["https://h/a", "https://h/b"] 1 false).seen.length ≤ 1 ∧
    mineLoop (fun _ => (Except.ok 0 : Except Unit Nat)) (fun _ => true)
      (fun _ _ => ([] : List Nat)) (some (fun _ b => [b ++ "/1", b ++ "/2"]))
      false 1 [] ["https://h/a"] [7] ["https://h/a"]
      = ⟨Except.ok [7], ["https://h/a"], ["https://h/a"]⟩ ∧
    mineLoop (fun _ => (Except.ok 0 : Except Unit Nat)) (fun _ => true)
      (fun _ _ => ([] : List Nat)) (some (fun _ b => [b ++ "/1", b ++ "/2"]))
      false 1 ["https://h/c"] ["https://h/a"] [7] ["https://h/a"]
      = ⟨Except.ok [7], ["https://h/a"], ["https://h/a"]⟩ :=
  ⟨(mine_target_seen_le_max_pages (fun _ => (Except.ok 0 : Except Unit Nat))
      (fun _ => true) (fun _ _ => ([] : List Nat))
      (some (fun _ b => [b ++ "/1", b ++ "/2"])) ["https://h/a", "https://h/b"] 1
      false).1,
   (mine_target_seen_le_max_pages (fun _ => (Except.ok 0 : Except Unit Nat))
      (fun _ => true) (fun _ _ => ([] : List Nat))
      (some (fun _ b => [b ++ "/1", b ++ "/2"])) ["https://h/a", "https://h/b"] 1
      false).2.1 ["https://h/a"] [7] ["https://h/a"],
   (mine_target_seen_le_max_pages (fun _ => (Except.ok 0 : Except Unit Nat))
      (fun _ => true) (fun _ _ => ([] : List Nat))
      (some (fun _ b => [b ++ "/1", b ++ "/2"])) ["https://h/a", "https://h/b"] 1
      false).2.2 "https://h/c" [] ["https://h/a"] [7] ["https://h/a"] (by decide)⟩

/-- C7: a fetch error on a fresh, robots-allowed URL is not caught by the
orchestrator: the loop stops at once with that error, the remaining queue
is never visited, and the records collected so far (`collected`, which is
arbitrary here) are absent from the result, which carries only the
error. -/
theorem mine_target_fetch_error_aborts {π ρ ε : Type} (fetch : String → Except ε π)
    (robots : String → Bool) (parse : π → String → List ρ)
    (discover : Option (π → String → List String)) (rr : Bool) (maxPages : Nat)
    (url : String) (queue seen : List String) (collected : List ρ)
    (fetched : List String) (e : ε) (hm : ¬ maxPages ≤ seen.length)
    (hs : url ∉ seen) (hr : ¬ (rr && !robots url) = true)
    (hf : fetch url = Except.error e) :
    mineLoop fetch robots parse discover rr maxPages (url :: queue) seen collected
      fetched = ⟨Except.error e, seen ++ [url], fetched ++ [url]⟩ :=
  mineLoop_fetch_error hm hs hr hf

/-- Witness for `mine_target_fetch_error_aborts`: one record was already
collected, the fetch of the next URL fails, and the run ends in the bare
error with the collected record gone. -/
theorem mine_target_fetch_error_aborts_witness :
    mineLoop (fun _ => (Except.error 7 : Except Nat Nat)) (fun _ => true)
      (fun _ _ => ([] : List Nat)) none true 2 ["https://h/a"] [] [5] []
      = ⟨Except.error 7, ["https://h/a"], ["https://h/a"]⟩ :=
  mine_target_fetch_error_aborts (fun _ => (Except.error 7 : Except Nat Nat))
    (fun _ => true) (fun _ _ => ([] : List Nat)) none true 2 "https://h/a" [] [] [5]
    [] 7 (by decide) (by simp) (by decide) rfl

/-- C8: when robots-respecting mode is on and the policy denies a fresh
dequeued URL, the loop marks it seen — consuming page budget — and
continues with the rest of the queue, leaving collection and fetch trace
untouched (first conjunct); moreover that URL is never fetched later in
the run either (second conjunct). -/
theorem mine_target_robots_denied_skips {π ρ ε : Type} (fetch : String → Except ε π)
    (robots : String → Bool) (parse : π → String → List ρ)
    (discover : Option (π → String → List String)) (maxPages : Nat) (url : String)
    (queue seen : List String) (collected : List ρ) (fetched : List String)
    (hm : ¬ maxPages ≤ seen.length) (hs : url ∉ seen) (hr : robots url = false) :
    (mineLoop fetch robots parse discover true maxPages (url :: queue) seen collected
        fetched
      = mineLoop fetch robots parse discover true maxPages queue (seen ++ [url])
          collected fetched) ∧
    (url ∉ fetched →
      url ∉ (mineLoop fetch robots parse discover true maxPages (url :: queue) seen
        collected fetched).fetched) := by
  constructor
  · exact mineLoop_robots_skip hm hs (by simp [hr])
  · intro hnf hmem
    rw [mineLoop_robots_skip hm hs (by simp [hr])] at hmem
    rcases mineLoop_fetched_fresh queue (seen ++ [url]) collected fetched url hmem
      with h | h
    · exact hnf h
    · exact h (List.mem_append_right _ (by simp))

/-- Witness for `mine_target_robots_denied_skips`: a one-URL queue whose
URL robots denies is skipped, counted as seen, and never fetched. -/
theorem mine_target_robots_denied_skips_witness :
    (mineLoop (fun _ => (Except.ok 0 : Except Unit Nat)) (fun _ => false)
        (fun _ _ => ([] : List Nat)) none true 2 ["https://h/a"] [] [] []
      = mineLoop (fun _ => (Except.ok 0 : Except Unit Nat)) (fun _ => false)
          (fun _ _ => ([] : List Nat)) none true 2 [] ["https://h/a"] [] []) ∧
    "https://h/a" ∉ (mineLoop (fun _ => (Except.ok 0 : Except Unit Nat))
      (fun _ => false) (fun _ _ => ([] : List Nat)) none true 2 ["https://h/a"] []
      [] []).fetched := by
  have h := mine_target_robots_denied_skips (fun _ => (Except.ok 0 : Except Unit Nat))
    (fun _ => false) (fun _ _ => ([] : List Nat)) none 2 "https://h/a" [] [] [] []
    (by decide) (by simp) rfl
  exact ⟨h.1, h.2 (by simp)⟩

end MultiSiteMiner
